import Mathlib

/-!
The gocql cluster-event path (`events.go`).

A shallow embedding of the event debouncer (`eventDeouncer`) and of the node
lifecycle handlers of `Session`, followed by the properties proved about them.

Conventions of the embedding.

* The mutex `mu` serialises `handleEvent` and the timer branch of `flusher`;
  every operation below is one such critical section, taken atomically.
* `go e.callback(events)` starts a goroutine with the batch as argument.  The
  debouncer state records the arguments of the invocations started so far, in
  the order in which they were started (field `callback`).
-/

namespace Gocql

/-! ## The debouncer -/

/-- The state of `eventDeouncer`: the pending `events` slice, and `callback`, the
batches the callback has been started with so far, oldest first. -/
structure eventDeouncer (frame : Type) where
  events : List frame
  callback : List (List frame)
deriving DecidableEq, Repr

namespace eventDeouncer

variable {frame : Type}

/-- The constant `maxEvents` of `handleEvent`. -/
def maxEvents : Nat := 100

/-- A freshly constructed debouncer: nothing pending, nothing delivered. -/
def empty : eventDeouncer frame := ⟨[], []⟩

/-- Go `flush` (called with `mu` locked): return at once on an empty buffer,
otherwise copy the buffer, truncate it to length zero and start the callback on
the copy. -/
def flush (e : eventDeouncer frame) : eventDeouncer frame :=
  if e.events.length = 0 then
    e
  else
    let events := e.events
    { events := e.events.take 0, callback := e.callback ++ [events] }

/-- Go `handleEvent`: append the frame, then flush when the buffer holds more
than `maxEvents` frames. -/
def handleEvent (e : eventDeouncer frame) (f : frame) : eventDeouncer frame :=
  let e := { e with events := e.events ++ [f] }
  if e.events.length > maxEvents then e.flush else e

/-- The channel a `select` of the `flusher` loop receives from. -/
inductive Select where
  | tickerC
  | quit
deriving DecidableEq, Repr

/-- Go `flusher`, driven by the sequence of channels its `select` receives from:
a tick flushes under the lock and loops, `quit` returns.  With nothing left to
receive the loop is blocked in `select` and the state is as it stands. -/
def flusher (e : eventDeouncer frame) : List Select → eventDeouncer frame
  | [] => e
  | Select.tickerC :: rest => flusher e.flush rest
  | Select.quit :: _ => e

/-- One step of a running debouncer as seen from outside: a caller submits a
frame, or the ticker fires. -/
inductive Step (frame : Type) where
  | submit (f : frame)
  | tick
deriving DecidableEq, Repr

/-- The effect of one step: `submit f` is `handleEvent f`, `tick` is one pass of
the `flusher` loop through its timer branch. -/
def step (e : eventDeouncer frame) : Step frame → eventDeouncer frame
  | Step.submit f => e.handleEvent f
  | Step.tick => e.flusher [Select.tickerC]

/-- Run a sequence of steps, left to right. -/
def run (e : eventDeouncer frame) (steps : List (Step frame)) : eventDeouncer frame :=
  steps.foldl step e

/-- The frames submitted by a sequence of steps, in submission order. -/
def submitted : List (Step frame) → List frame
  | [] => []
  | Step.submit f :: rest => f :: submitted rest
  | Step.tick :: rest => submitted rest

/-- Submit the frames of a list one after another, with no tick in between. -/
def submitAll (e : eventDeouncer frame) (fs : List frame) : eventDeouncer frame :=
  e.run (fs.map Step.submit)

/-- Everything handed to the callback so far, batch after batch, followed by
what is still pending. -/
def history (e : eventDeouncer frame) : List frame :=
  e.callback.flatten ++ e.events

/-- The `k`-th consecutive block of `maxEvents + 1` frames of a list. -/
def block (fs : List frame) (k : Nat) : List frame :=
  (fs.drop ((maxEvents + 1) * k)).take (maxEvents + 1)

end eventDeouncer

/-! ## The node lifecycle handlers of `Session`

`events.go` uses the session's collaborators only through their methods; their
declarations live in other files of the package.  They are modelled from the
interface the specification gives for them (section 6), each under a doc
comment that says so.

A handler's effect is the session it leaves behind together with the list of
collaborator calls it made, in program order.  The connection pool is an
external collaborator without observable state of its own here: what a handler
does to it is the list of pool calls.
-/

/-- Go `net.IP`, a byte slice.  Its method `String()` belongs to the standard
library; the handlers take it as the parameter `ipString`. -/
abbrev IP := List Nat

/-- The two lifecycle states of a host record, `NodeUp` and `NodeDown`. -/
inductive NodeState where
  | NodeUp
  | NodeDown
deriving DecidableEq, Repr

export NodeState (NodeUp NodeDown)

/-- Modelled from the spec: the host record `HostInfo`, declared outside
`events.go`: "address (IP), port, lifecycle state ∈ {Up, Down}". -/
structure HostInfo where
  peer : IP
  port : Int
  state : NodeState
deriving DecidableEq, Repr

/-- Modelled from the spec: `HostInfo.setState`, "mutable `setState(Up|Down)`";
the method is declared outside `events.go`. -/
def HostInfo.setState (h : HostInfo) (st : NodeState) : HostInfo :=
  { h with state := st }

/-- Modelled from the spec: the membership set `ring`, declared outside
`events.go`: "the authoritative mapping from address → host record", a record
being "looked up by address string". -/
structure ring where
  hosts : String → Option HostInfo

namespace ring

/-- Modelled from the spec: `ring.getHost`, "`getHost(address) →
hostRecord|absent`"; the method is declared outside `events.go`. -/
def getHost (r : ring) (addr : String) : Option HostInfo :=
  r.hosts addr

/-- Modelled from the spec: `ring.addHostIfMissing`, "`addHostIfMissing(hostRecord)
→ bool` (false if already present)"; the method is declared outside
`events.go`.  The record goes under the string of its own address. -/
def addHostIfMissing (ipString : IP → String) (r : ring) (host : HostInfo) : Bool × ring :=
  let addr := ipString host.peer
  match r.hosts addr with
  | some _ => (false, r)
  | none => (true, ⟨fun a => if a = addr then some host else r.hosts a⟩)

/-- Modelled from the spec: `ring.removeHost`, "`removeHost(address)`",
"idempotent no-op if absent"; the method is declared outside `events.go`. -/
def removeHost (r : ring) (addr : String) : ring :=
  ⟨fun a => if a = addr then none else r.hosts a⟩

/-- The ring hands out pointers to its records: `setState` on the record that
`getHost addr` returned changes the record the ring holds under `addr`. -/
def setState (r : ring) (addr : String) (st : NodeState) : ring :=
  ⟨fun a => if a = addr then (r.hosts a).map (fun h => h.setState st) else r.hosts a⟩

end ring

/-- Modelled from the spec: the metadata fetcher `controlConn`, declared outside
`events.go`: "`fetchHostInfo(address, port) → (hostRecord, error)`".  What a
fetch answers may change from one call to the next: `answer n` is the reply to
the fetch made after `n` earlier ones, `asked` counts the fetches made. -/
structure controlConn where
  answer : Nat → IP → Int → Except String HostInfo
  asked : Nat

/-- Modelled from the spec: `controlConn.fetchHostInfo`, declared outside
`events.go`: the reply, and the connection after the call. -/
def controlConn.fetchHostInfo (c : controlConn) (host : IP) (port : Int) :
    Except String HostInfo × controlConn :=
  (c.answer c.asked host port, { c with asked := c.asked + 1 })

/-- A call a handler makes on a collaborator, with its arguments. -/
inductive Call where
  | fetchHostInfo (host : IP) (port : Int)
  | ringAddHostIfMissing (host : HostInfo)
  | ringRemoveHost (addr : String)
  | ringGetHost (addr : String)
  | setState (host : HostInfo) (st : NodeState)
  | poolAddHost (host : HostInfo)
  | poolRemoveHost (addr : String)
  | poolHostUp (host : HostInfo)
  | poolHostDown (addr : String)
  | logPrintf
  | framerPoolPut
deriving DecidableEq, Repr

/-- Whether a call is a metadata fetch. -/
def Call.isFetch : Call → Bool
  | Call.fetchHostInfo _ _ => true
  | _ => false

/-- The fields of `Session` the handlers touch: `control` (nil when no metadata
fetcher is configured) and `ring`.  The field `pool` shows as the pool calls of
a handler. -/
structure Session where
  control : Option controlConn
  ring : ring

/-- How far a handler call has come: it has `returned`, or it is still `running`
when the bound on the depth of nested handler calls was reached.  Either way
the session as it stands and the collaborator calls made so far are given. -/
inductive Outcome where
  | returned (s : Session) (calls : List Call)
  | running (s : Session) (calls : List Call)

namespace Outcome

/-- The session an outcome carries. -/
def session : Outcome → Session
  | returned s _ => s
  | running s _ => s

/-- The collaborator calls an outcome carries. -/
def calls : Outcome → List Call
  | returned _ cs => cs
  | running _ cs => cs

/-- Whether the handler call has returned. -/
def isReturned : Outcome → Bool
  | returned _ _ => true
  | running _ _ => false

/-- The outcome of a nested call, seen from a caller that made the calls `pre`
before it. -/
def after (pre : List Call) : Outcome → Outcome
  | returned s cs => returned s (pre ++ cs)
  | running s cs => running s (pre ++ cs)

end Outcome

namespace Session

set_option linter.unusedVariables false in
/-- Go `Session.handleRemovedNode`. -/
def handleRemovedNode (ipString : IP → String) (s : Session) (ip : IP) (port : Int) :
    Session × List Call :=
  let addr := ipString ip
  ({ s with ring := s.ring.removeHost addr },
    [Call.poolRemoveHost addr, Call.ringRemoveHost addr])

set_option linter.unusedVariables false in
/-- Go `Session.handleNodeDown`. -/
def handleNodeDown (ipString : IP → String) (s : Session) (ip : IP) (port : Int) :
    Session × List Call :=
  let addr := ipString ip
  match s.ring.getHost addr with
  | some host =>
    ({ s with ring := s.ring.setState addr NodeDown },
      [Call.ringGetHost addr, Call.setState host NodeDown, Call.poolHostDown addr])
  | none => (s, [Call.ringGetHost addr, Call.poolHostDown addr])

mutual

/-- Go `Session.handleNewNode`.  The first argument bounds the depth of nested
handler calls. -/
def handleNewNode (ipString : IP → String) : Nat → Session → IP → Int → Outcome
  | 0, s, _, _ => Outcome.running s []
  | fuel + 1, s, host, port =>
    match s.control with
    | none => Outcome.returned s []
    | some control =>
      match control.fetchHostInfo host port with
      | (Except.error _, control) =>
        Outcome.returned { s with control := some control }
          [Call.fetchHostInfo host port, Call.logPrintf]
      | (Except.ok hostInfo, control) =>
        match s.ring.addHostIfMissing ipString hostInfo with
        | (false, ring) =>
          (handleNodeUp ipString fuel { control := some control, ring := ring } host port).after
            [Call.fetchHostInfo host port, Call.ringAddHostIfMissing hostInfo]
        | (true, ring) =>
          Outcome.returned { control := some control, ring := ring }
            [Call.fetchHostInfo host port, Call.ringAddHostIfMissing hostInfo,
              Call.poolAddHost hostInfo]

/-- Go `Session.handleNodeUp`.  The first argument bounds the depth of nested
handler calls. -/
def handleNodeUp (ipString : IP → String) : Nat → Session → IP → Int → Outcome
  | 0, s, _, _ => Outcome.running s []
  | fuel + 1, s, ip, port =>
    let addr := ipString ip
    match s.ring.getHost addr with
    | some host =>
      Outcome.returned { s with ring := s.ring.setState addr NodeUp }
        [Call.ringGetHost addr, Call.setState host NodeUp,
          Call.poolHostUp (host.setState NodeUp)]
    | none => (handleNewNode ipString fuel s ip port).after [Call.ringGetHost addr]

end

end Session

/-! ### The event classifier `Session.handleEvent` -/

/-- Modelled from the spec: the decoded notification frame, whose types are
declared outside `events.go`: the three schema-change frames ("opaque to this
core", their payload is left out), `TopologyChange{changeKind, address, port}`,
`StatusChange{changeKind, address, port}`, and `other` for a frame of any other
type.  The change kind is the string the server sent. -/
inductive frame where
  | schemaChangeKeyspace
  | schemaChangeFunction
  | schemaChangeTable
  | topologyChangeEventFrame (change : String) (host : IP) (port : Int)
  | statusChangeEventFrame (change : String) (host : IP) (port : Int)
  | other
deriving DecidableEq, Repr

/-- Modelled from the spec: the `framer`, declared outside `events.go`:
"`parseFrame() → (notificationFrame, error)`".  A framer is given by what
parsing it yields. -/
structure framer where
  parsed : Except String frame

/-- Modelled from the spec: `framer.parseFrame`, declared outside `events.go`. -/
def framer.parseFrame (f : framer) : Except String frame :=
  f.parsed

/-- A function body with deferred calls `post`: they are made when the body
returns, and not before. -/
def Outcome.deferred (post : List Call) : Outcome → Outcome
  | Outcome.returned s cs => Outcome.returned s (cs ++ post)
  | Outcome.running s cs => Outcome.running s cs

/-- Go `Session.handleEvent`.  The first argument bounds the depth of nested
handler calls below it.  The two `switch` statements on `f.change` compare the
string with each case in turn; a string that matches no case falls through. -/
def Session.handleEvent (ipString : IP → String) (fuel : Nat) (s : Session)
    (framer : framer) : Outcome :=
  Outcome.deferred [Call.framerPoolPut] <|
    match framer.parseFrame with
    | Except.error _ => Outcome.returned s [Call.logPrintf]
    | Except.ok f =>
      match f with
      | frame.schemaChangeKeyspace => Outcome.returned s []
      | frame.schemaChangeFunction => Outcome.returned s []
      | frame.schemaChangeTable => Outcome.returned s []
      | frame.topologyChangeEventFrame change host port =>
        if change = "NEW_NODE" then
          s.handleNewNode ipString fuel host port
        else if change = "REMOVED_NODE" then
          Outcome.returned (s.handleRemovedNode ipString host port).1
            (s.handleRemovedNode ipString host port).2
        else if change = "MOVED_NODE" then
          Outcome.returned s []
        else
          Outcome.returned s []
      | frame.statusChangeEventFrame change host port =>
        if change = "UP" then
          s.handleNodeUp ipString fuel host port
        else if change = "DOWN" then
          Outcome.returned (s.handleNodeDown ipString host port).1
            (s.handleNodeDown ipString host port).2
        else
          Outcome.returned s []
      | frame.other => Outcome.returned s [Call.logPrintf]

/-- An outcome of a handler call for `(ip, port)` that is still going round the
UP fallback: it has not returned, the ring is still `r`, `k` fetches were made,
and every call so far is the lookup of the address, a fetch for `(ip, port)` or
an `addHostIfMissing`. -/
def Outcome.spinning (ipString : IP → String) (r : ring) (ip : IP) (port : Int) (k : Nat)
    (o : Outcome) : Prop :=
  o.isReturned = false ∧ o.session.ring = r ∧ o.calls.countP Call.isFetch = k ∧
    ∀ x ∈ o.calls, x = Call.ringGetHost (ipString ip) ∨ x = Call.fetchHostInfo ip port ∨
      ∃ h, x = Call.ringAddHostIfMissing h

/-! ### Concrete data for examples -/

/-- A rendering of the addresses used in the examples below; every other
address is rendered as `"?"`. -/
def exampleString : IP → String
  | [10, 0, 0, 5] => "10.0.0.5"
  | [10, 0, 0, 6] => "10.0.0.6"
  | _ => "?"

/-- The record of host 10.0.0.5, currently down. -/
def host5 : HostInfo := ⟨[10, 0, 0, 5], 9042, NodeDown⟩

/-- A ring that holds host 10.0.0.5 and nothing else. -/
def ring5 : ring := ⟨fun a => if a = "10.0.0.5" then some host5 else none⟩

/-- A ring without hosts. -/
def emptyRing : ring := ⟨fun _ => none⟩

/-- A fetcher that answers every fetch with the record of host 10.0.0.5. -/
def fetch5 : controlConn := ⟨fun _ _ _ => Except.ok host5, 0⟩

/-- A fetcher whose every fetch fails. -/
def failing : controlConn := ⟨fun _ _ _ => Except.error "unreachable", 0⟩

/-! ## Properties of the debouncer -/

namespace eventDeouncer

variable {frame : Type}

theorem flush_eq (e : eventDeouncer frame) :
    e.flush = if e.events.length = 0 then e else ⟨[], e.callback ++ [e.events]⟩ := by
  cases e with
  | mk ev cb => cases ev <;> simp [flush]

theorem flush_of_ne_nil (e : eventDeouncer frame) (h : e.events ≠ []) :
    e.flush = ⟨[], e.callback ++ [e.events]⟩ := by
  rw [flush_eq, if_neg]
  simpa using h

theorem tick_eq (e : eventDeouncer frame) : e.step Step.tick = e.flush := by
  simp [step, flusher]

theorem history_flush (e : eventDeouncer frame) : e.flush.history = e.history := by
  rw [flush_eq]
  split <;> simp_all [history]

theorem history_handleEvent (e : eventDeouncer frame) (f : frame) :
    (e.handleEvent f).history = e.history ++ [f] := by
  unfold handleEvent
  simp only
  split
  · rw [history_flush]; simp [history]
  · simp [history]

theorem history_run (steps : List (Step frame)) (e : eventDeouncer frame) :
    (e.run steps).history = e.history ++ submitted steps := by
  induction steps generalizing e with
  | nil => simp [run, submitted]
  | cons s rest ih =>
    have h : e.run (s :: rest) = (e.step s).run rest := rfl
    rw [h, ih]
    cases s with
    | submit f => simp [step, history_handleEvent, submitted]
    | tick => rw [tick_eq, history_flush]; simp [submitted]

theorem handleEvent_eq (e : eventDeouncer frame) (f : frame) :
    e.handleEvent f =
      if e.events.length + 1 > 100 then ⟨[], e.callback ++ [e.events ++ [f]]⟩
      else ⟨e.events ++ [f], e.callback⟩ := by
  unfold handleEvent
  simp only [List.length_append, List.length_singleton, maxEvents]
  split
  · rw [flush_of_ne_nil _ (by simp)]
  · rfl

theorem submitAll_append (e : eventDeouncer frame) (fs : List frame) (f : frame) :
    e.submitAll (fs ++ [f]) = (e.submitAll fs).handleEvent f := by
  simp [submitAll, run, step]

/-- Between ticks the buffer stays within the threshold and every batch cut by
a submission holds `maxEvents + 1` frames. -/
theorem submitAll_shape (fs : List frame) :
    (∀ b ∈ ((empty : eventDeouncer frame).submitAll fs).callback, b.length = 101) ∧
      ((empty : eventDeouncer frame).submitAll fs).events.length ≤ 100 := by
  induction fs using List.reverseRecOn with
  | nil => simp [submitAll, run, empty]
  | append_singleton fs f ih =>
    rw [submitAll_append, handleEvent_eq]
    obtain ⟨hb, he⟩ := ih
    split
    · refine ⟨?_, by simp⟩
      intro b hmem
      rcases List.mem_append.mp hmem with h | h
      · exact hb b h
      · have : b = (empty.submitAll fs).events ++ [f] := by simpa using h
        subst this
        simp only [List.length_append, List.length_singleton]
        omega
    · refine ⟨hb, ?_⟩
      simp only [List.length_append, List.length_singleton]
      omega

/-- A list cut into full blocks of 101 followed by a shorter rest is cut in the
only possible way. -/
theorem blocks_unique (bs : List (List frame)) (r fs : List frame)
    (hcat : bs.flatten ++ r = fs) (hfull : ∀ b ∈ bs, b.length = 101)
    (hrest : r.length ≤ 100) :
    bs = (List.range (fs.length / 101)).map (block fs) ∧
      r = fs.drop (101 * (fs.length / 101)) := by
  induction bs generalizing fs with
  | nil =>
    have hfs : fs = r := by simpa using hcat.symm
    subst hfs
    have h0 : fs.length / 101 = 0 := by omega
    simp [h0]
  | cons b bs ih =>
    have hb : b.length = 101 := hfull b (by simp)
    obtain ⟨h1, h2⟩ := ih (bs.flatten ++ r) rfl (fun c hc => hfull c (by simp [hc]))
    have hfs : fs = b ++ (bs.flatten ++ r) := by
      rw [← hcat]; simp
    set fs1 := bs.flatten ++ r with hfs1
    have hlen : fs.length = 101 + fs1.length := by rw [hfs]; simp [hb]
    have hq : fs.length / 101 = fs1.length / 101 + 1 := by omega
    have hdrop : ∀ k, fs.drop (101 * (k + 1)) = fs1.drop (101 * k) := by
      intro k
      have : 101 * (k + 1) = b.length + 101 * k := by omega
      rw [hfs, this, List.drop_append]
    constructor
    · rw [hq, List.range_succ_eq_map, List.map_cons, List.map_map]
      congr 1
      · simp [block, maxEvents, hfs, ← hb]
      · rw [h1]
        apply List.map_congr_left
        intro k _
        simp only [block, maxEvents, Function.comp]
        rw [hdrop k]
    · rw [hq, hdrop]; exact h2

theorem submitted_map_submit (fs : List frame) : submitted (fs.map Step.submit) = fs := by
  induction fs with
  | nil => rfl
  | cons f fs ih => simp [submitted, ih]

theorem submitAll_history (fs : List frame) :
    ((empty : eventDeouncer frame).submitAll fs).callback.flatten
      ++ ((empty : eventDeouncer frame).submitAll fs).events = fs := by
  have h := history_run (fs.map Step.submit) (empty : eventDeouncer frame)
  rw [submitted_map_submit] at h
  simpa [history, empty, submitAll] using h

theorem submitAll_small (fs : List frame) (h : fs.length ≤ 100) :
    (empty : eventDeouncer frame).submitAll fs = ⟨fs, []⟩ := by
  induction fs using List.reverseRecOn with
  | nil => rfl
  | append_singleton fs f ih =>
    have hlen : fs.length + 1 ≤ 100 := by simpa using h
    rw [submitAll_append, ih (by omega), handleEvent_eq, if_neg (by simp; omega)]

/-- C1: for every finite sequence of steps (submissions and timer ticks) run
from an empty debouncer, the batches handed to the callback, concatenated in
the order they were cut, followed by the frames still buffered, are exactly the
submitted frames in submission order: nothing is lost, duplicated or
reordered. -/
theorem C1_batches_then_buffer_eq_submitted (steps : List (Step frame)) :
    ((empty : eventDeouncer frame).run steps).callback.flatten
        ++ ((empty : eventDeouncer frame).run steps).events
      = submitted steps := by
  have h := history_run steps (empty : eventDeouncer frame)
  simpa [history, empty] using h

/-- C2: `handleEvent` appends the frame to the buffer `b`; when `len b + 1 > 100`
the callback is started exactly once, with `b ++ [f]`, and the buffer is left
empty; otherwise no callback is started and the buffer is `b ++ [f]`.  The
100th buffered frame does not flush, the 101st does. -/
theorem C2_handleEvent_threshold (e : eventDeouncer frame) (f : frame) :
    (e.events.length + 1 > 100 →
        e.handleEvent f = ⟨[], e.callback ++ [e.events ++ [f]]⟩) ∧
      (e.events.length + 1 ≤ 100 →
        e.handleEvent f = ⟨e.events ++ [f], e.callback⟩) ∧
      (e.events.length = 99 →
        (e.handleEvent f).callback = e.callback ∧
          (e.handleEvent f).events.length = 100) ∧
      (e.events.length = 100 →
        (e.handleEvent f).callback = e.callback ++ [e.events ++ [f]] ∧
          (e.handleEvent f).events = []) := by
  rw [handleEvent_eq]
  refine ⟨fun h => by rw [if_pos h], fun h => by rw [if_neg (by omega)], ?_, ?_⟩
  · intro h
    rw [if_neg (by omega)]
    simp [h]
  · intro h
    rw [if_pos (by omega)]
    exact ⟨rfl, rfl⟩

/-- C2 at concrete buffers: with 99 frames pending the 100th is only buffered,
with 100 pending the 101st cuts a batch of all 101. -/
theorem C2_handleEvent_threshold_witness :
    ((⟨List.replicate 99 7, []⟩ : eventDeouncer Nat).handleEvent 8).callback = [] ∧
      ((⟨List.replicate 100 7, []⟩ : eventDeouncer Nat).handleEvent 8)
        = ⟨[], [List.replicate 100 7 ++ [8]]⟩ :=
  ⟨((C2_handleEvent_threshold ⟨List.replicate 99 7, []⟩ 8).2.2.1 (by simp)).1,
    (C2_handleEvent_threshold ⟨List.replicate 100 7, []⟩ 8).1 (by simp)⟩

/-- C3 fails for the empty sequence of submissions: it is a sequence of at most
100 submissions, yet the tick that follows starts no callback at all. -/
theorem C3_counterexample :
    ([] : List Nat).length ≤ 100 ∧
      (((empty : eventDeouncer Nat).submitAll []).step Step.tick).callback = [] ∧
      (((empty : eventDeouncer Nat).submitAll []).step Step.tick).callback.length ≠ 1 := by
  decide

/-- C3 (amended): for every non-empty sequence of at most 100 submissions made
on an empty debouncer, no submission starts the callback (not after any prefix
of the sequence), all frames are pending in submission order, and the tick that
follows starts the callback exactly once, with exactly those frames in
submission order, leaving the buffer empty. -/
theorem C3_one_batch_at_tick (fs : List frame) (hne : fs ≠ []) (hle : fs.length ≤ 100) :
    (∀ k, ((empty : eventDeouncer frame).submitAll (fs.take k)).callback = []) ∧
      (empty : eventDeouncer frame).submitAll fs = ⟨fs, []⟩ ∧
      ((empty : eventDeouncer frame).submitAll fs).step Step.tick = ⟨[], [fs]⟩ := by
  refine ⟨?_, submitAll_small fs hle, ?_⟩
  · intro k
    rw [submitAll_small (fs.take k) (by rw [List.length_take]; omega)]
  · rw [submitAll_small fs hle, tick_eq, flush_of_ne_nil _ hne]
    rfl

/-- C3 scenario: E1, E2, E3 submitted, then one tick, gives exactly one
callback invocation, with `[E1, E2, E3]`. -/
theorem C3_one_batch_at_tick_witness :
    ((empty : eventDeouncer Nat).submitAll [1, 2, 3]).step Step.tick = ⟨[], [[1, 2, 3]]⟩ :=
  (C3_one_batch_at_tick [1, 2, 3] (by decide) (by decide)).2.2

/-- C4: submitting `n` frames in a row to an empty debouncer, with no tick in
between, starts the callback exactly `n / 101` times, the `k`-th batch being the
`k`-th consecutive block of 101 submitted frames, and leaves exactly the last
`n % 101` frames pending, in order; a following tick hands that remainder over
as one batch when it is non-empty and does nothing otherwise.  For `n = 101`
there is one batch with all frames and an empty buffer; for `n = 150` a first
batch with the first 101 frames and, at the tick, a second with the other 49. -/
theorem C4_burst_blocks_of_101 (fs : List frame) :
    ((empty : eventDeouncer frame).submitAll fs).callback.length = fs.length / 101 ∧
      ((empty : eventDeouncer frame).submitAll fs).callback
        = (List.range (fs.length / 101)).map (fun k => (fs.drop (101 * k)).take 101) ∧
      ((empty : eventDeouncer frame).submitAll fs).events
        = fs.drop (fs.length - fs.length % 101) ∧
      ((empty : eventDeouncer frame).submitAll fs).events.length = fs.length % 101 ∧
      (fs.length % 101 ≠ 0 →
        ((empty : eventDeouncer frame).submitAll fs).step Step.tick
          = ⟨[], ((empty : eventDeouncer frame).submitAll fs).callback
                  ++ [fs.drop (fs.length - fs.length % 101)]⟩) ∧
      (fs.length % 101 = 0 →
        ((empty : eventDeouncer frame).submitAll fs).step Step.tick
          = (empty : eventDeouncer frame).submitAll fs) ∧
      (fs.length = 101 → (empty : eventDeouncer frame).submitAll fs = ⟨[], [fs]⟩) ∧
      (fs.length = 150 →
        (empty : eventDeouncer frame).submitAll fs = ⟨fs.drop 101, [fs.take 101]⟩ ∧
          ((empty : eventDeouncer frame).submitAll fs).step Step.tick
            = ⟨[], [fs.take 101, fs.drop 101]⟩ ∧
          (fs.drop 101).length = 49) := by
  obtain ⟨hfull, hrest⟩ := submitAll_shape fs
  obtain ⟨hcb, hev⟩ := blocks_unique _ _ fs (submitAll_history fs) hfull hrest
  have hcb1 : ((empty : eventDeouncer frame).submitAll fs).callback
      = (List.range (fs.length / 101)).map (fun k => (fs.drop (101 * k)).take 101) := by
    rw [hcb]; rfl
  have hoff : fs.length - fs.length % 101 = 101 * (fs.length / 101) := by omega
  have hev1 : ((empty : eventDeouncer frame).submitAll fs).events
      = fs.drop (fs.length - fs.length % 101) := by
    rw [hoff]; exact hev
  have hlen : ((empty : eventDeouncer frame).submitAll fs).events.length
      = fs.length % 101 := by
    rw [hev1, List.length_drop]; omega
  refine ⟨by rw [hcb1]; simp, hcb1, hev1, hlen, ?_, ?_, ?_, ?_⟩
  · intro hn
    have hne : ((empty : eventDeouncer frame).submitAll fs).events ≠ [] := by
      intro h0
      rw [h0] at hlen
      exact hn hlen.symm
    rw [tick_eq, flush_of_ne_nil _ hne, hev1]
  · intro hn
    rw [tick_eq, flush_eq, if_pos (by rw [hlen]; exact hn)]
  · intro hn
    have h1 : fs.length / 101 = 1 := by omega
    have h2 : fs.length - fs.length % 101 = fs.length := by omega
    have hc : ((empty : eventDeouncer frame).submitAll fs).callback = [fs] := by
      rw [hcb1, h1]
      simp [List.range_succ, List.take_of_length_le (le_of_eq hn)]
    have he : ((empty : eventDeouncer frame).submitAll fs).events = [] := by
      rw [hev1, h2]; simp
    cases hd : (empty : eventDeouncer frame).submitAll fs with
    | mk ev cb =>
      rw [hd] at hc he
      simp only at hc he
      rw [hc, he]
  · intro hn
    have h1 : fs.length / 101 = 1 := by omega
    have h2 : fs.length - fs.length % 101 = 101 := by omega
    have hc : ((empty : eventDeouncer frame).submitAll fs).callback = [fs.take 101] := by
      rw [hcb1, h1]
      simp [List.range_succ]
    have he : ((empty : eventDeouncer frame).submitAll fs).events = fs.drop 101 := by
      rw [hev1, h2]
    have hd : (empty : eventDeouncer frame).submitAll fs = ⟨fs.drop 101, [fs.take 101]⟩ := by
      cases hd : (empty : eventDeouncer frame).submitAll fs with
      | mk ev cb =>
        rw [hd] at hc he
        simp only at hc he
        rw [hc, he]
    have h49 : (fs.drop 101).length = 49 := by rw [List.length_drop]; omega
    refine ⟨hd, ?_, h49⟩
    rw [hd, tick_eq, flush_of_ne_nil _ (by
      intro h0
      have := congrArg List.length h0
      simp only [List.length_nil] at this
      omega)]
    rfl

/-- C5: `flush` on an empty buffer starts no callback and leaves the debouncer
state as it was; hence a timer tick on an empty buffer delivers nothing. -/
theorem C5_flush_empty_noop (e : eventDeouncer frame) (h : e.events = []) :
    e.flush = e ∧ e.flush.callback = e.callback ∧
      e.step Step.tick = e ∧ e.flusher [Select.tickerC] = e := by
  have hf : e.flush = e := by
    rw [flush_eq, if_pos (by simp [h])]
  refine ⟨hf, by rw [hf], by rw [tick_eq, hf], ?_⟩
  simp [flusher, hf]

/-- C5 at a concrete state: two batches already delivered, nothing pending. -/
theorem C5_flush_empty_noop_witness :
    (⟨[], [[1, 2], [3]]⟩ : eventDeouncer Nat).flush = ⟨[], [[1, 2], [3]]⟩ :=
  (C5_flush_empty_noop ⟨[], [[1, 2], [3]]⟩ rfl).1

theorem run_cons (e : eventDeouncer frame) (st : Step frame) (steps : List (Step frame)) :
    e.run (st :: steps) = (e.step st).run steps := rfl

/-- One step from a buffer within the threshold: the buffer stays within it, and
at most one batch is cut, of 101 frames by a submission and of 1 to 100 frames
by a tick. -/
theorem step_bounded (e : eventDeouncer frame) (h : e.events.length ≤ 100) :
    (∀ f, (e.handleEvent f).events.length ≤ 100 ∧
        ((e.handleEvent f).callback = e.callback ∨
          ∃ b, (e.handleEvent f).callback = e.callback ++ [b] ∧ b.length = 101)) ∧
      ((e.step Step.tick).events.length ≤ 100 ∧
        ((e.step Step.tick).callback = e.callback ∨
          ∃ b, (e.step Step.tick).callback = e.callback ++ [b] ∧
            1 ≤ b.length ∧ b.length ≤ 100)) := by
  constructor
  · intro f
    rw [handleEvent_eq]
    split
    · refine ⟨by simp, Or.inr ⟨e.events ++ [f], rfl, ?_⟩⟩
      simp only [List.length_append, List.length_singleton]
      omega
    · refine ⟨?_, Or.inl rfl⟩
      simp only [List.length_append, List.length_singleton]
      omega
  · rw [tick_eq, flush_eq]
    split
    · exact ⟨h, Or.inl rfl⟩
    · refine ⟨by simp, Or.inr ⟨e.events, rfl, ?_, h⟩⟩
      omega

/-- Along any run from a buffer within the threshold the buffer stays within it,
and the batches cut on the way are appended to those already handed over, each
of 1 to 101 frames. -/
theorem run_bounded (steps : List (Step frame)) (e : eventDeouncer frame)
    (h : e.events.length ≤ 100) :
    (e.run steps).events.length ≤ 100 ∧
      ∃ cut, (e.run steps).callback = e.callback ++ cut ∧
        ∀ b ∈ cut, 1 ≤ b.length ∧ b.length ≤ 101 := by
  induction steps generalizing e with
  | nil => exact ⟨h, [], by simp [run], by simp⟩
  | cons st steps ih =>
    rw [run_cons]
    have hstep : (e.step st).events.length ≤ 100 ∧
        ((e.step st).callback = e.callback ∨
          ∃ b, (e.step st).callback = e.callback ++ [b] ∧ 1 ≤ b.length ∧ b.length ≤ 101) := by
      cases st with
      | submit f =>
        obtain ⟨h1, h2⟩ := (step_bounded e h).1 f
        refine ⟨h1, ?_⟩
        rcases h2 with h2 | ⟨b, hb, hl⟩
        · exact Or.inl h2
        · exact Or.inr ⟨b, hb, by omega, by omega⟩
      | tick =>
        obtain ⟨h1, h2⟩ := (step_bounded e h).2
        refine ⟨h1, ?_⟩
        rcases h2 with h2 | ⟨b, hb, hl1, hl2⟩
        · exact Or.inl h2
        · exact Or.inr ⟨b, hb, hl1, by omega⟩
    obtain ⟨hle, hcb⟩ := hstep
    obtain ⟨ih1, cut, hcut, hall⟩ := ih (e.step st) hle
    refine ⟨ih1, ?_⟩
    rcases hcb with hcb | ⟨b, hb, hl1, hl2⟩
    · exact ⟨cut, by rw [hcut, hcb], hall⟩
    · refine ⟨b :: cut, by rw [hcut, hb]; simp, ?_⟩
      intro c hc
      rcases List.mem_cons.mp hc with hc | hc
      · subst hc; exact ⟨hl1, hl2⟩
      · exact hall c hc

theorem flusher_ticks_then_quit (n : Nat) (e : eventDeouncer frame) (rest : List Select) :
    e.flusher (List.replicate n Select.tickerC ++ Select.quit :: rest)
      = e.flusher (List.replicate n Select.tickerC) := by
  induction n generalizing e with
  | zero => rfl
  | succ n ih =>
    simp only [List.replicate_succ, List.cons_append, flusher]
    exact ih e.flush

/-- C16: shutdown performs no final flush.  When the `flusher` loop receives from
`quit` it returns without calling `flush`: whatever the buffer holds, the
callback is not started and the buffer is left as it is, and whatever the ticker
would deliver afterwards is never received, so those frames are not delivered by
the flusher.  After any number of ticks the loop ends in the state the ticks
alone led to.  For a debouncer started empty the buffer holds at most 100 frames
at that moment. -/
theorem C16_quit_no_final_flush (e : eventDeouncer frame) (n : Nat) (rest : List Select) :
    e.flusher (Select.quit :: rest) = e ∧
      (e.flusher (Select.quit :: rest)).callback = e.callback ∧
      (e.flusher (Select.quit :: rest)).events = e.events ∧
      e.flusher (List.replicate n Select.tickerC ++ Select.quit :: rest)
        = e.flusher (List.replicate n Select.tickerC) ∧
      (∀ steps : List (Step frame),
        ((empty : eventDeouncer frame).run steps).events.length ≤ 100 ∧
          ((empty : eventDeouncer frame).run steps).flusher (Select.quit :: rest)
            = (empty : eventDeouncer frame).run steps) :=
  ⟨rfl, rfl, rfl, flusher_ticks_then_quit n e rest,
    fun steps => ⟨(run_bounded steps empty (by simp [empty])).1, rfl⟩⟩

/-- C20: the bounded-buffer invariant.  From a buffer of at most 100 frames, a
submission leaves at most 100 frames pending and cuts either no batch or one
batch of exactly 101 frames; a tick leaves at most 100 pending and cuts either
no batch or one batch of 1 to 100 frames; so after every run of submissions and
ticks the buffer holds at most 100 frames and every batch cut on the way is
non-empty and has at most 101 frames.  In particular this holds for every batch
a debouncer started empty ever hands to the callback. -/
theorem C20_bounded_buffer (e : eventDeouncer frame) (h : e.events.length ≤ 100) :
    (∀ f, (e.handleEvent f).events.length ≤ 100 ∧
        ((e.handleEvent f).callback = e.callback ∨
          ∃ b, (e.handleEvent f).callback = e.callback ++ [b] ∧ b.length = 101)) ∧
      ((e.step Step.tick).events.length ≤ 100 ∧
        ((e.step Step.tick).callback = e.callback ∨
          ∃ b, (e.step Step.tick).callback = e.callback ++ [b] ∧
            1 ≤ b.length ∧ b.length ≤ 100)) ∧
      (∀ steps, (e.run steps).events.length ≤ 100 ∧
        ∃ cut, (e.run steps).callback = e.callback ++ cut ∧
          ∀ b ∈ cut, 1 ≤ b.length ∧ b.length ≤ 101) ∧
      (∀ steps : List (Step frame),
        ((empty : eventDeouncer frame).run steps).events.length ≤ 100 ∧
          ∀ b ∈ ((empty : eventDeouncer frame).run steps).callback,
            1 ≤ b.length ∧ b.length ≤ 101) := by
  refine ⟨(step_bounded e h).1, (step_bounded e h).2, fun steps => run_bounded steps e h, ?_⟩
  intro steps
  obtain ⟨h1, cut, hcut, hall⟩ := run_bounded steps (empty : eventDeouncer frame)
    (by simp [empty])
  refine ⟨h1, ?_⟩
  intro b hb
  rw [hcut] at hb
  simp only [empty, List.nil_append] at hb
  exact hall b hb

/-- C20 at a concrete state: two frames pending, then a submission, a tick and
another submission: one frame is pending and the tick cut one batch of three. -/
theorem C20_bounded_buffer_witness :
    ((⟨[1, 2], []⟩ : eventDeouncer Nat).run
        [Step.submit 3, Step.tick, Step.submit 4]).events.length ≤ 100 ∧
      ∃ cut, ((⟨[1, 2], []⟩ : eventDeouncer Nat).run
          [Step.submit 3, Step.tick, Step.submit 4]).callback = [] ++ cut ∧
        ∀ b ∈ cut, 1 ≤ b.length ∧ b.length ≤ 101 :=
  (C20_bounded_buffer ⟨[1, 2], []⟩ (by decide)).2.2.1
    [Step.submit 3, Step.tick, Step.submit 4]

end eventDeouncer

/-! ## Properties of the node lifecycle handlers -/

namespace Session

theorem ring_ext {r₁ r₂ : Gocql.ring} (h : ∀ a, r₁.hosts a = r₂.hosts a) : r₁ = r₂ := by
  cases r₁; cases r₂
  congr
  exact funext h

theorem handleNodeUp_found (ipString : IP → String) (fuel : Nat) (s : Session) (ip : IP)
    (port : Int) (host : HostInfo) (h : s.ring.getHost (ipString ip) = some host) :
    handleNodeUp ipString (fuel + 1) s ip port
      = Outcome.returned { s with ring := s.ring.setState (ipString ip) NodeUp }
          [Call.ringGetHost (ipString ip), Call.setState host NodeUp,
            Call.poolHostUp (host.setState NodeUp)] := by
  simp [handleNodeUp, h]

theorem handleNodeUp_absent (ipString : IP → String) (fuel : Nat) (s : Session) (ip : IP)
    (port : Int) (h : s.ring.getHost (ipString ip) = none) :
    handleNodeUp ipString (fuel + 1) s ip port
      = (handleNewNode ipString fuel s ip port).after [Call.ringGetHost (ipString ip)] := by
  simp [handleNodeUp, h]

theorem handleNewNode_nil (ipString : IP → String) (fuel : Nat) (s : Session) (ip : IP)
    (port : Int) (h : s.control = none) :
    handleNewNode ipString (fuel + 1) s ip port = Outcome.returned s [] := by
  simp [handleNewNode, h]

theorem handleNewNode_fetch_failed (ipString : IP → String) (fuel : Nat) (s : Session)
    (ip : IP) (port : Int) (c : controlConn) (err : String) (h : s.control = some c)
    (hf : c.answer c.asked ip port = Except.error err) :
    handleNewNode ipString (fuel + 1) s ip port
      = Outcome.returned { s with control := some { c with asked := c.asked + 1 } }
          [Call.fetchHostInfo ip port, Call.logPrintf] := by
  simp [handleNewNode, h, controlConn.fetchHostInfo, hf]

theorem handleNewNode_present (ipString : IP → String) (fuel : Nat) (s : Session)
    (ip : IP) (port : Int) (c : controlConn) (hostInfo : HostInfo) (h : s.control = some c)
    (hf : c.answer c.asked ip port = Except.ok hostInfo)
    (hp : (s.ring.addHostIfMissing ipString hostInfo).1 = false) :
    handleNewNode ipString (fuel + 1) s ip port
      = (handleNodeUp ipString fuel
            { control := some { c with asked := c.asked + 1 }, ring := s.ring } ip port).after
          [Call.fetchHostInfo ip port, Call.ringAddHostIfMissing hostInfo] := by
  have hr : s.ring.addHostIfMissing ipString hostInfo = (false, s.ring) := by
    cases hh : s.ring.hosts (ipString hostInfo.peer) with
    | none => simp [ring.addHostIfMissing, hh] at hp
    | some x => simp [ring.addHostIfMissing, hh]
  simp [handleNewNode, h, controlConn.fetchHostInfo, hf, hr]

theorem handleNewNode_added (ipString : IP → String) (fuel : Nat) (s : Session)
    (ip : IP) (port : Int) (c : controlConn) (hostInfo : HostInfo) (h : s.control = some c)
    (hf : c.answer c.asked ip port = Except.ok hostInfo)
    (hp : s.ring.getHost (ipString hostInfo.peer) = none) :
    handleNewNode ipString (fuel + 1) s ip port
      = Outcome.returned
          { control := some { c with asked := c.asked + 1 },
            ring := (s.ring.addHostIfMissing ipString hostInfo).2 }
          [Call.fetchHostInfo ip port, Call.ringAddHostIfMissing hostInfo,
            Call.poolAddHost hostInfo] := by
  have hh : s.ring.hosts (ipString hostInfo.peer) = none := hp
  simp [handleNewNode, h, controlConn.fetchHostInfo, hf, ring.addHostIfMissing, hh]

theorem after_session (pre : List Call) (o : Outcome) : (o.after pre).session = o.session := by
  cases o <;> rfl

theorem after_calls (pre : List Call) (o : Outcome) : (o.after pre).calls = pre ++ o.calls := by
  cases o <;> rfl

theorem after_isReturned (pre : List Call) (o : Outcome) :
    (o.after pre).isReturned = o.isReturned := by
  cases o <;> rfl

/-- C6: for every address and every session, `handleRemovedNode(ip, port)` calls
`pool.removeHost(ip.String())` exactly once and `ring.removeHost(ip.String())`
exactly once and makes no other collaborator call (the metadata fetcher is left
as it was); it has no error result.  When the address is absent from the ring the
session is unchanged, every other address keeps its record, and the address is
absent afterwards in every case. -/
theorem C6_handleRemovedNode_unconditional (ipString : IP → String) (s : Session)
    (ip : IP) (port : Int) :
    (handleRemovedNode ipString s ip port).2
        = [Call.poolRemoveHost (ipString ip), Call.ringRemoveHost (ipString ip)] ∧
      (handleRemovedNode ipString s ip port).2.count (Call.poolRemoveHost (ipString ip)) = 1 ∧
      (handleRemovedNode ipString s ip port).2.count (Call.ringRemoveHost (ipString ip)) = 1 ∧
      (handleRemovedNode ipString s ip port).1.control = s.control ∧
      (s.ring.getHost (ipString ip) = none →
        (handleRemovedNode ipString s ip port).1.ring = s.ring) ∧
      (∀ a, a ≠ ipString ip →
        (handleRemovedNode ipString s ip port).1.ring.getHost a = s.ring.getHost a) ∧
      (handleRemovedNode ipString s ip port).1.ring.getHost (ipString ip) = none := by
  refine ⟨rfl, by simp [handleRemovedNode], by simp [handleRemovedNode], rfl, ?_, ?_, ?_⟩
  · intro habs
    apply ring_ext
    intro a
    simp only [handleRemovedNode, ring.removeHost]
    split
    · next h => rw [h]; exact habs.symm
    · rfl
  · intro a ha
    simp [handleRemovedNode, ring.removeHost, ring.getHost, ha]
  · simp [handleRemovedNode, ring.removeHost, ring.getHost]

/-- C6 at concrete sessions: removing 10.0.0.5 from a ring that holds it, and
removing 10.0.0.6, which the ring does not hold. -/
theorem C6_handleRemovedNode_unconditional_witness :
    (handleRemovedNode exampleString ⟨none, ring5⟩ [10, 0, 0, 5] 9042).2
        = [Call.poolRemoveHost "10.0.0.5", Call.ringRemoveHost "10.0.0.5"] ∧
      (handleRemovedNode exampleString ⟨none, ring5⟩ [10, 0, 0, 6] 9042).1.ring = ring5 :=
  ⟨(C6_handleRemovedNode_unconditional exampleString ⟨none, ring5⟩ [10, 0, 0, 5] 9042).1,
    (C6_handleRemovedNode_unconditional exampleString ⟨none, ring5⟩ [10, 0, 0, 6] 9042).2.2.2.2.1
      (by decide)⟩

/-- C7: for every address and every session, `handleNodeDown(ip, port)` calls
`pool.hostDown(ip.String())` exactly once, whether or not the ring holds the
host; besides the lookup and that call it makes at most a `setState(NodeDown)`,
so it never fetches metadata and never adds or removes a ring entry.  When the
host is found its state becomes Down and nothing else in the ring changes; when
it is absent the session is unchanged. -/
theorem C7_handleNodeDown (ipString : IP → String) (s : Session) (ip : IP) (port : Int) :
    (handleNodeDown ipString s ip port).2.count (Call.poolHostDown (ipString ip)) = 1 ∧
      (∀ c ∈ (handleNodeDown ipString s ip port).2,
        c = Call.ringGetHost (ipString ip) ∨ c = Call.poolHostDown (ipString ip) ∨
          ∃ h, c = Call.setState h NodeDown) ∧
      (handleNodeDown ipString s ip port).1.control = s.control ∧
      (∀ a, ((handleNodeDown ipString s ip port).1.ring.getHost a).isSome
        = (s.ring.getHost a).isSome) ∧
      (∀ a, a ≠ ipString ip →
        (handleNodeDown ipString s ip port).1.ring.getHost a = s.ring.getHost a) ∧
      (∀ host, s.ring.getHost (ipString ip) = some host →
        (handleNodeDown ipString s ip port).1.ring.getHost (ipString ip)
            = some { host with state := NodeDown } ∧
          (handleNodeDown ipString s ip port).2
            = [Call.ringGetHost (ipString ip), Call.setState host NodeDown,
                Call.poolHostDown (ipString ip)]) ∧
      (s.ring.getHost (ipString ip) = none →
        (handleNodeDown ipString s ip port).1 = s ∧
          (handleNodeDown ipString s ip port).2
            = [Call.ringGetHost (ipString ip), Call.poolHostDown (ipString ip)]) := by
  cases hget : s.ring.getHost (ipString ip) with
  | none =>
    simp [handleNodeDown, hget]
  | some host =>
    have hh : s.ring.hosts (ipString ip) = some host := hget
    simp only [handleNodeDown, hget]
    refine ⟨by simp, ?_, trivial, ?_, ?_, ?_, ?_⟩
    · intro c hc
      simp only [List.mem_cons, List.mem_singleton] at hc
      rcases hc with h | h | h | h
      · exact Or.inl h
      · exact Or.inr (Or.inr ⟨host, h⟩)
      · exact Or.inr (Or.inl h)
      · simp at h
    · intro a
      simp only [ring.setState, ring.getHost]
      split <;> simp
    · intro a ha
      simp [ring.setState, ring.getHost, ha]
    · intro h' hh'
      simp only [Option.some.injEq] at hh'
      subst hh'
      simp [ring.setState, ring.getHost, hh, HostInfo.setState]
    · intro h0
      simp at h0

/-- C7 at concrete sessions: 10.0.0.5 is in the ring and is marked down;
10.0.0.6 is not, the pool is told all the same and the session is unchanged. -/
theorem C7_handleNodeDown_witness :
    (handleNodeDown exampleString ⟨none, ring5⟩ [10, 0, 0, 5] 9042).2
        = [Call.ringGetHost "10.0.0.5", Call.setState host5 NodeDown,
            Call.poolHostDown "10.0.0.5"] ∧
      (handleNodeDown exampleString ⟨none, ring5⟩ [10, 0, 0, 6] 9042).2
        = [Call.ringGetHost "10.0.0.6", Call.poolHostDown "10.0.0.6"] :=
  ⟨((C7_handleNodeDown exampleString ⟨none, ring5⟩ [10, 0, 0, 5] 9042).2.2.2.2.2.1 host5
      (by decide)).2,
    ((C7_handleNodeDown exampleString ⟨none, ring5⟩ [10, 0, 0, 6] 9042).2.2.2.2.2.2
      (by decide)).2⟩

/-- C8: when the ring holds a record for the address, `handleNodeUp(ip, port)`
returns after exactly the lookup, `setState(NodeUp)` on that record and one
`pool.hostUp` with that record (now Up): no metadata fetch (the fetcher is left
as it was), no `pool.addHost`, no ring entry added or removed, and every other
host's record unchanged. -/
theorem C8_handleNodeUp_known (ipString : IP → String) (fuel : Nat) (s : Session) (ip : IP)
    (port : Int) (host : HostInfo) (h : s.ring.getHost (ipString ip) = some host) :
    (handleNodeUp ipString (fuel + 1) s ip port).isReturned = true ∧
      (handleNodeUp ipString (fuel + 1) s ip port).calls
        = [Call.ringGetHost (ipString ip), Call.setState host NodeUp,
            Call.poolHostUp { host with state := NodeUp }] ∧
      (handleNodeUp ipString (fuel + 1) s ip port).session.control = s.control ∧
      (handleNodeUp ipString (fuel + 1) s ip port).session.ring.getHost (ipString ip)
        = some { host with state := NodeUp } ∧
      (∀ a, a ≠ ipString ip →
        (handleNodeUp ipString (fuel + 1) s ip port).session.ring.getHost a
          = s.ring.getHost a) ∧
      (∀ a, ((handleNodeUp ipString (fuel + 1) s ip port).session.ring.getHost a).isSome
        = (s.ring.getHost a).isSome) := by
  have hh : s.ring.hosts (ipString ip) = some host := h
  rw [handleNodeUp_found ipString fuel s ip port host h]
  refine ⟨rfl, rfl, rfl, ?_, ?_, ?_⟩
  · simp [Outcome.session, ring.setState, ring.getHost, hh, HostInfo.setState]
  · intro a ha
    simp [Outcome.session, ring.setState, ring.getHost, ha]
  · intro a
    simp only [Outcome.session, ring.setState, ring.getHost]
    split <;> simp

/-- C8 at a concrete session: UP for 10.0.0.5, which the ring holds as down. -/
theorem C8_handleNodeUp_known_witness :
    (handleNodeUp exampleString 1 ⟨some fetch5, ring5⟩ [10, 0, 0, 5] 9042).calls
      = [Call.ringGetHost "10.0.0.5", Call.setState host5 NodeUp,
          Call.poolHostUp { host5 with state := NodeUp }] :=
  (C8_handleNodeUp_known exampleString 0 ⟨some fetch5, ring5⟩ [10, 0, 0, 5] 9042 host5
    (by decide)).2.1

theorem handleNewNode_calls_head (ipString : IP → String) (fuel : Nat) (s : Session)
    (ip : IP) (port : Int) (c : controlConn) (h : s.control = some c) :
    ∃ rest, (handleNewNode ipString (fuel + 1) s ip port).calls
      = Call.fetchHostInfo ip port :: rest := by
  cases hf : c.answer c.asked ip port with
  | error err =>
    rw [handleNewNode_fetch_failed ipString fuel s ip port c err h hf]
    exact ⟨_, rfl⟩
  | ok hostInfo =>
    cases hp : (s.ring.addHostIfMissing ipString hostInfo).1 with
    | false =>
      rw [handleNewNode_present ipString fuel s ip port c hostInfo h hf hp, after_calls]
      exact ⟨_, rfl⟩
    | true =>
      have hn : s.ring.getHost (ipString hostInfo.peer) = none := by
        cases hh : s.ring.hosts (ipString hostInfo.peer) with
        | none => exact hh
        | some x => simp [ring.addHostIfMissing, hh] at hp
      rw [handleNewNode_added ipString fuel s ip port c hostInfo h hf hn]
      exact ⟨_, rfl⟩

/-- C9 fails without a metadata fetcher: with `s.control` nil and the address
absent from the ring, `handleNodeUp` returns after the lookup and no
`fetchHostInfo` call is ever made. -/
theorem C9_counterexample :
    emptyRing.getHost (exampleString [10, 0, 0, 5]) = none ∧
      (handleNodeUp exampleString 2 ⟨none, emptyRing⟩ [10, 0, 0, 5] 9042).isReturned = true ∧
      (handleNodeUp exampleString 2 ⟨none, emptyRing⟩ [10, 0, 0, 5] 9042).calls
        = [Call.ringGetHost "10.0.0.5"] ∧
      ∀ fuel, Call.fetchHostInfo [10, 0, 0, 5] 9042
        ∉ (handleNodeUp exampleString fuel ⟨none, emptyRing⟩ [10, 0, 0, 5] 9042).calls := by
  refine ⟨rfl, rfl, rfl, ?_⟩
  intro fuel
  have habs : (⟨none, emptyRing⟩ : Session).ring.getHost (exampleString [10, 0, 0, 5]) = none :=
    rfl
  match fuel with
  | 0 => simp [handleNodeUp, Outcome.calls]
  | 1 =>
    rw [handleNodeUp_absent exampleString 0 _ _ _ habs, after_calls]
    simp [handleNewNode, Outcome.calls]
  | n + 2 =>
    rw [handleNodeUp_absent exampleString (n + 1) _ _ _ habs, after_calls,
      handleNewNode_nil exampleString n _ _ _ rfl]
    simp [Outcome.calls]

/-- C9 (amended): for every address absent from the ring, `handleNodeUp(ip, port)`
goes through the new-node path: after the lookup its effect on ring, pool and
metadata fetcher is exactly that of `handleNewNode(ip, port)` on the same
session (same session left behind, same calls, returning exactly when it
does); so when a metadata fetcher is configured, the lookup is followed at once
by `fetchHostInfo(ip, port)`. -/
theorem C9_handleNodeUp_unknown (ipString : IP → String) (fuel : Nat) (s : Session)
    (ip : IP) (port : Int) (habs : s.ring.getHost (ipString ip) = none) :
    (handleNodeUp ipString (fuel + 1) s ip port).session
        = (handleNewNode ipString fuel s ip port).session ∧
      (handleNodeUp ipString (fuel + 1) s ip port).calls
        = Call.ringGetHost (ipString ip) :: (handleNewNode ipString fuel s ip port).calls ∧
      (handleNodeUp ipString (fuel + 1) s ip port).isReturned
        = (handleNewNode ipString fuel s ip port).isReturned ∧
      (∀ c, s.control = some c →
        ∃ rest, (handleNodeUp ipString (fuel + 2) s ip port).calls
          = Call.ringGetHost (ipString ip) :: Call.fetchHostInfo ip port :: rest) := by
  refine ⟨?_, ?_, ?_, ?_⟩
  · rw [handleNodeUp_absent ipString fuel s ip port habs, after_session]
  · rw [handleNodeUp_absent ipString fuel s ip port habs, after_calls]
    rfl
  · rw [handleNodeUp_absent ipString fuel s ip port habs, after_isReturned]
  · intro c hc
    obtain ⟨rest, hrest⟩ := handleNewNode_calls_head ipString fuel s ip port c hc
    refine ⟨rest, ?_⟩
    rw [handleNodeUp_absent ipString (fuel + 1) s ip port habs, after_calls, hrest]
    rfl

/-- C9 at a concrete session: UP for 10.0.0.5 on an empty ring with a fetcher
that knows the host: lookup, fetch, add to the ring, add to the pool. -/
theorem C9_handleNodeUp_unknown_witness :
    (handleNodeUp exampleString 2 ⟨some fetch5, emptyRing⟩ [10, 0, 0, 5] 9042).calls
      = Call.ringGetHost "10.0.0.5"
          :: (handleNewNode exampleString 1 ⟨some fetch5, emptyRing⟩ [10, 0, 0, 5] 9042).calls :=
  (C9_handleNodeUp_unknown exampleString 1 ⟨some fetch5, emptyRing⟩ [10, 0, 0, 5] 9042 rfl).2.1

/-- C10: when the metadata fetch for `(ip, port)` succeeds with the record of
that address and `ring.addHostIfMissing` reports the host already present,
`handleNewNode(ip, port)` has, after the fetch and the `addHostIfMissing` call,
the effect of `handleNodeUp(ip, port)`: the ring holds a record under
`ip.String()`, the call returns, that record's state is set to Up, the pool is
notified with `hostUp` for it, `pool.addHost` is not called, and every other
record is as before.  Ring and calls are those of `handleNodeUp(ip, port)` run on
the same session, after the two calls made before it. -/
theorem C10_handleNewNode_already_present (ipString : IP → String) (fuel : Nat)
    (s : Session) (ip : IP) (port : Int) (c : controlConn) (hostInfo : HostInfo)
    (hc : s.control = some c) (hf : c.answer c.asked ip port = Except.ok hostInfo)
    (hkey : ipString hostInfo.peer = ipString ip)
    (hp : (s.ring.addHostIfMissing ipString hostInfo).1 = false) :
    ∃ host, s.ring.getHost (ipString ip) = some host ∧
      handleNewNode ipString (fuel + 2) s ip port
        = (handleNodeUp ipString (fuel + 1)
            ⟨some { c with asked := c.asked + 1 }, s.ring⟩ ip port).after
            [Call.fetchHostInfo ip port, Call.ringAddHostIfMissing hostInfo] ∧
      (handleNewNode ipString (fuel + 2) s ip port).isReturned = true ∧
      (handleNewNode ipString (fuel + 2) s ip port).calls
        = [Call.fetchHostInfo ip port, Call.ringAddHostIfMissing hostInfo,
            Call.ringGetHost (ipString ip), Call.setState host NodeUp,
            Call.poolHostUp { host with state := NodeUp }] ∧
      (handleNewNode ipString (fuel + 2) s ip port).calls
        = [Call.fetchHostInfo ip port, Call.ringAddHostIfMissing hostInfo]
            ++ (handleNodeUp ipString (fuel + 1) s ip port).calls ∧
      (handleNewNode ipString (fuel + 2) s ip port).session.ring
        = (handleNodeUp ipString (fuel + 1) s ip port).session.ring ∧
      (∀ h, Call.poolAddHost h ∉ (handleNewNode ipString (fuel + 2) s ip port).calls) ∧
      (handleNewNode ipString (fuel + 2) s ip port).session.ring.getHost (ipString ip)
        = some { host with state := NodeUp } ∧
      (∀ a, a ≠ ipString ip →
        (handleNewNode ipString (fuel + 2) s ip port).session.ring.getHost a
          = s.ring.getHost a) := by
  have hpresent : ∃ host, s.ring.getHost (ipString ip) = some host := by
    cases hh : s.ring.hosts (ipString hostInfo.peer) with
    | none => simp [ring.addHostIfMissing, hh] at hp
    | some x => exact ⟨x, by rw [← hkey]; exact hh⟩
  obtain ⟨host, hk⟩ := hpresent
  have hh : s.ring.hosts (ipString ip) = some host := hk
  have hstep := handleNewNode_present ipString (fuel + 1) s ip port c hostInfo hc hf hp
  refine ⟨host, hk, hstep, ?_⟩
  rw [hstep, handleNodeUp_found ipString fuel
    ⟨some { c with asked := c.asked + 1 }, s.ring⟩ ip port host hk,
    handleNodeUp_found ipString fuel s ip port host hk]
  refine ⟨rfl, rfl, rfl, rfl, ?_, ?_, ?_⟩
  · intro h hmem
    simp [Outcome.after, Outcome.calls] at hmem
  · simp [Outcome.after, Outcome.session, ring.setState, ring.getHost, hh,
      HostInfo.setState]
  · intro a ha
    simp [Outcome.after, Outcome.session, ring.setState, ring.getHost, ha]

/-- C10 at a concrete session: NEW_NODE for 10.0.0.5, which the ring already
holds as down: the host is marked up and the pool is told `hostUp`. -/
theorem C10_handleNewNode_already_present_witness :
    ∃ host, ring5.getHost "10.0.0.5" = some host ∧
      (handleNewNode exampleString 2 ⟨some fetch5, ring5⟩ [10, 0, 0, 5] 9042).calls
        = [Call.fetchHostInfo [10, 0, 0, 5] 9042, Call.ringAddHostIfMissing host5,
            Call.ringGetHost "10.0.0.5", Call.setState host NodeUp,
            Call.poolHostUp { host with state := NodeUp }] :=
  match C10_handleNewNode_already_present exampleString 0 ⟨some fetch5, ring5⟩
      [10, 0, 0, 5] 9042 fetch5 host5 rfl rfl rfl (by decide) with
  | ⟨host, hk, _, _, hcalls, _⟩ => ⟨host, hk, hcalls⟩

/-- C11: with a metadata fetcher configured, a successful fetch and the fetched
host not yet in the ring, `handleNewNode(ip, port)` returns after exactly one
fetch, one `addHostIfMissing` and one `pool.addHost`, both with the fetched
record: the ring then holds that record under its address and every other
address as before; `pool.hostUp` and `setState` are not called. -/
theorem C11_handleNewNode_fresh (ipString : IP → String) (fuel : Nat) (s : Session)
    (ip : IP) (port : Int) (c : controlConn) (hostInfo : HostInfo)
    (hc : s.control = some c) (hf : c.answer c.asked ip port = Except.ok hostInfo)
    (hnew : s.ring.getHost (ipString hostInfo.peer) = none) :
    (handleNewNode ipString (fuel + 1) s ip port).isReturned = true ∧
      (handleNewNode ipString (fuel + 1) s ip port).calls
        = [Call.fetchHostInfo ip port, Call.ringAddHostIfMissing hostInfo,
            Call.poolAddHost hostInfo] ∧
      (handleNewNode ipString (fuel + 1) s ip port).calls.count (Call.poolAddHost hostInfo)
        = 1 ∧
      (handleNewNode ipString (fuel + 1) s ip port).calls.count (Call.fetchHostInfo ip port)
        = 1 ∧
      (∀ h, Call.poolHostUp h ∉ (handleNewNode ipString (fuel + 1) s ip port).calls) ∧
      (∀ h st, Call.setState h st ∉ (handleNewNode ipString (fuel + 1) s ip port).calls) ∧
      (handleNewNode ipString (fuel + 1) s ip port).session.ring.getHost
          (ipString hostInfo.peer) = some hostInfo ∧
      (∀ a, a ≠ ipString hostInfo.peer →
        (handleNewNode ipString (fuel + 1) s ip port).session.ring.getHost a
          = s.ring.getHost a) ∧
      (handleNewNode ipString (fuel + 1) s ip port).session.control
        = some { c with asked := c.asked + 1 } := by
  have hh : s.ring.hosts (ipString hostInfo.peer) = none := hnew
  rw [handleNewNode_added ipString fuel s ip port c hostInfo hc hf hnew]
  refine ⟨rfl, rfl, by simp [Outcome.calls], by simp [Outcome.calls],
    by simp [Outcome.calls], by simp [Outcome.calls], ?_, ?_, rfl⟩
  · simp [Outcome.session, ring.addHostIfMissing, ring.getHost, hh]
  · intro a ha
    simp [Outcome.session, ring.addHostIfMissing, ring.getHost, hh, ha]

/-- C11 at a concrete session: NEW_NODE for 10.0.0.5 on an empty ring. -/
theorem C11_handleNewNode_fresh_witness :
    (handleNewNode exampleString 1 ⟨some fetch5, emptyRing⟩ [10, 0, 0, 5] 9042).calls
      = [Call.fetchHostInfo [10, 0, 0, 5] 9042, Call.ringAddHostIfMissing host5,
          Call.poolAddHost host5] :=
  (C11_handleNewNode_fresh exampleString 0 ⟨some fetch5, emptyRing⟩ [10, 0, 0, 5] 9042
    fetch5 host5 rfl rfl rfl).2.1

/-- C12: `handleNewNode(ip, port)` changes nothing unless a fetch succeeded.
With `s.control` nil it returns at once: no call at all, session unchanged.
When the fetch fails it returns after that one fetch and the log line: no ring
or pool call, ring unchanged.  The same holds for `handleNodeUp` on an address
absent from the ring, which makes the lookup before. -/
theorem C12_no_change_without_fetch (ipString : IP → String) (fuel : Nat) (s : Session)
    (ip : IP) (port : Int) :
    (s.control = none →
        handleNewNode ipString (fuel + 1) s ip port = Outcome.returned s [] ∧
          (s.ring.getHost (ipString ip) = none →
            handleNodeUp ipString (fuel + 2) s ip port
              = Outcome.returned s [Call.ringGetHost (ipString ip)])) ∧
      (∀ c err, s.control = some c → c.answer c.asked ip port = Except.error err →
        (handleNewNode ipString (fuel + 1) s ip port).isReturned = true ∧
          (handleNewNode ipString (fuel + 1) s ip port).calls
            = [Call.fetchHostInfo ip port, Call.logPrintf] ∧
          (handleNewNode ipString (fuel + 1) s ip port).session.ring = s.ring ∧
          (s.ring.getHost (ipString ip) = none →
            (handleNodeUp ipString (fuel + 2) s ip port).isReturned = true ∧
              (handleNodeUp ipString (fuel + 2) s ip port).calls
                = [Call.ringGetHost (ipString ip), Call.fetchHostInfo ip port,
                    Call.logPrintf] ∧
              (handleNodeUp ipString (fuel + 2) s ip port).session.ring = s.ring)) := by
  constructor
  · intro hnil
    refine ⟨handleNewNode_nil ipString fuel s ip port hnil, ?_⟩
    intro habs
    rw [handleNodeUp_absent ipString (fuel + 1) s ip port habs,
      handleNewNode_nil ipString fuel s ip port hnil]
    rfl
  · intro c err hc hf
    have hnew := handleNewNode_fetch_failed ipString fuel s ip port c err hc hf
    refine ⟨by rw [hnew]; rfl, by rw [hnew]; rfl, by rw [hnew]; rfl, ?_⟩
    intro habs
    rw [handleNodeUp_absent ipString (fuel + 1) s ip port habs, hnew]
    exact ⟨rfl, rfl, rfl⟩

/-- C12 at concrete sessions: no fetcher configured, and a fetcher whose fetch
fails, both on an empty ring. -/
theorem C12_no_change_without_fetch_witness :
    handleNewNode exampleString 1 ⟨none, emptyRing⟩ [10, 0, 0, 5] 9042
        = Outcome.returned ⟨none, emptyRing⟩ [] ∧
      (handleNewNode exampleString 1 ⟨some failing, emptyRing⟩ [10, 0, 0, 5] 9042).calls
        = [Call.fetchHostInfo [10, 0, 0, 5] 9042, Call.logPrintf] :=
  ⟨((C12_no_change_without_fetch exampleString 0 ⟨none, emptyRing⟩ [10, 0, 0, 5] 9042).1
      rfl).1,
    ((C12_no_change_without_fetch exampleString 0 ⟨some failing, emptyRing⟩
      [10, 0, 0, 5] 9042).2 failing "unreachable" rfl rfl).2.1⟩

theorem deferred_session (post : List Call) (o : Outcome) :
    (o.deferred post).session = o.session := by
  cases o <;> rfl

theorem deferred_isReturned (post : List Call) (o : Outcome) :
    (o.deferred post).isReturned = o.isReturned := by
  cases o <;> rfl

theorem deferred_calls (post : List Call) (o : Outcome) :
    (o.deferred post).calls = o.calls ++ (if o.isReturned then post else []) := by
  cases o <;> simp [Outcome.deferred, Outcome.calls, Outcome.isReturned]

/-- C13: for a successfully parsed frame `handleEvent` dispatches on the frame
type and the change kind.  A topology change "NEW_NODE" is `handleNewNode(f.host,
f.port)`, "REMOVED_NODE" is `handleRemovedNode(f.host, f.port)`; a status change
"UP" is `handleNodeUp(f.host, f.port)`, "DOWN" is `handleNodeDown(f.host,
f.port)`: the session left behind is the handler's, the calls are the
handler's, and `handleEvent` returns exactly when the handler does, the only
addition being the deferred `framerPool.Put` on return.  So one handler runs,
once, on the frame's own host and port. -/
theorem C13_handleEvent_dispatch (ipString : IP → String) (fuel : Nat) (s : Session)
    (host : IP) (port : Int) :
    (handleEvent ipString fuel s ⟨Except.ok (frame.topologyChangeEventFrame "NEW_NODE" host port)⟩
        = (handleNewNode ipString fuel s host port).deferred [Call.framerPoolPut] ∧
      (handleEvent ipString fuel s
          ⟨Except.ok (frame.topologyChangeEventFrame "NEW_NODE" host port)⟩).session
        = (handleNewNode ipString fuel s host port).session ∧
      (handleEvent ipString fuel s
          ⟨Except.ok (frame.topologyChangeEventFrame "NEW_NODE" host port)⟩).isReturned
        = (handleNewNode ipString fuel s host port).isReturned ∧
      (handleEvent ipString fuel s
          ⟨Except.ok (frame.topologyChangeEventFrame "NEW_NODE" host port)⟩).calls
        = (handleNewNode ipString fuel s host port).calls
            ++ (if (handleNewNode ipString fuel s host port).isReturned
                then [Call.framerPoolPut] else [])) ∧
    (handleEvent ipString fuel s
        ⟨Except.ok (frame.topologyChangeEventFrame "REMOVED_NODE" host port)⟩
      = Outcome.returned (handleRemovedNode ipString s host port).1
          ((handleRemovedNode ipString s host port).2 ++ [Call.framerPoolPut])) ∧
    (handleEvent ipString fuel s ⟨Except.ok (frame.statusChangeEventFrame "UP" host port)⟩
        = (handleNodeUp ipString fuel s host port).deferred [Call.framerPoolPut] ∧
      (handleEvent ipString fuel s
          ⟨Except.ok (frame.statusChangeEventFrame "UP" host port)⟩).session
        = (handleNodeUp ipString fuel s host port).session ∧
      (handleEvent ipString fuel s
          ⟨Except.ok (frame.statusChangeEventFrame "UP" host port)⟩).isReturned
        = (handleNodeUp ipString fuel s host port).isReturned ∧
      (handleEvent ipString fuel s
          ⟨Except.ok (frame.statusChangeEventFrame "UP" host port)⟩).calls
        = (handleNodeUp ipString fuel s host port).calls
            ++ (if (handleNodeUp ipString fuel s host port).isReturned
                then [Call.framerPoolPut] else [])) ∧
    (handleEvent ipString fuel s ⟨Except.ok (frame.statusChangeEventFrame "DOWN" host port)⟩
      = Outcome.returned (handleNodeDown ipString s host port).1
          ((handleNodeDown ipString s host port).2 ++ [Call.framerPoolPut])) := by
  have hnew : handleEvent ipString fuel s
      ⟨Except.ok (frame.topologyChangeEventFrame "NEW_NODE" host port)⟩
      = (handleNewNode ipString fuel s host port).deferred [Call.framerPoolPut] := by
    simp [handleEvent, framer.parseFrame]
  have hup : handleEvent ipString fuel s
      ⟨Except.ok (frame.statusChangeEventFrame "UP" host port)⟩
      = (handleNodeUp ipString fuel s host port).deferred [Call.framerPoolPut] := by
    simp [handleEvent, framer.parseFrame]
  refine ⟨⟨hnew, ?_, ?_, ?_⟩, ?_, ⟨hup, ?_, ?_, ?_⟩, ?_⟩
  · rw [hnew, deferred_session]
  · rw [hnew, deferred_isReturned]
  · rw [hnew, deferred_calls]
  · simp [handleEvent, framer.parseFrame, Outcome.deferred]
  · rw [hup, deferred_session]
  · rw [hup, deferred_isReturned]
  · rw [hup, deferred_calls]
  · simp [handleEvent, framer.parseFrame, Outcome.deferred]

/-- C14: `handleEvent` changes state only for the four handled kinds.  On a
decode failure, on each schema-change frame, on a topology change whose change
is "MOVED_NODE" or any string other than "NEW_NODE" and "REMOVED_NODE", on a
status change whose change is neither "UP" nor "DOWN", and on a frame of any
other type, it returns with the session unchanged, having made no call but a
log line (decode failure, other frame type) and the deferred
`framerPool.Put`: no handler, no fetch, no ring or pool call.  It has no error
result. -/
theorem C14_handleEvent_unhandled (ipString : IP → String) (fuel : Nat) (s : Session) :
    (∀ err, handleEvent ipString fuel s ⟨Except.error err⟩
        = Outcome.returned s [Call.logPrintf, Call.framerPoolPut]) ∧
      handleEvent ipString fuel s ⟨Except.ok frame.schemaChangeKeyspace⟩
        = Outcome.returned s [Call.framerPoolPut] ∧
      handleEvent ipString fuel s ⟨Except.ok frame.schemaChangeFunction⟩
        = Outcome.returned s [Call.framerPoolPut] ∧
      handleEvent ipString fuel s ⟨Except.ok frame.schemaChangeTable⟩
        = Outcome.returned s [Call.framerPoolPut] ∧
      (∀ host port,
        handleEvent ipString fuel s
            ⟨Except.ok (frame.topologyChangeEventFrame "MOVED_NODE" host port)⟩
          = Outcome.returned s [Call.framerPoolPut]) ∧
      (∀ change host port, change ≠ "NEW_NODE" → change ≠ "REMOVED_NODE" →
        handleEvent ipString fuel s
            ⟨Except.ok (frame.topologyChangeEventFrame change host port)⟩
          = Outcome.returned s [Call.framerPoolPut]) ∧
      (∀ change host port, change ≠ "UP" → change ≠ "DOWN" →
        handleEvent ipString fuel s
            ⟨Except.ok (frame.statusChangeEventFrame change host port)⟩
          = Outcome.returned s [Call.framerPoolPut]) ∧
      handleEvent ipString fuel s ⟨Except.ok frame.other⟩
        = Outcome.returned s [Call.logPrintf, Call.framerPoolPut] := by
  refine ⟨fun err => rfl, rfl, rfl, rfl, ?_, ?_, ?_, rfl⟩
  · intro host port
    simp [handleEvent, framer.parseFrame, Outcome.deferred]
  · intro change host port h1 h2
    simp [handleEvent, framer.parseFrame, Outcome.deferred, h1, h2]
  · intro change host port h1 h2
    simp [handleEvent, framer.parseFrame, Outcome.deferred, h1, h2]

/-- C14 at concrete frames: a status change "SIDEWAYS" and a topology change
"MOVED_NODE" leave a session that knows 10.0.0.5 as it is. -/
theorem C14_handleEvent_unhandled_witness :
    handleEvent exampleString 5 ⟨some fetch5, ring5⟩
        ⟨Except.ok (frame.statusChangeEventFrame "SIDEWAYS" [10, 0, 0, 5] 9042)⟩
      = Outcome.returned ⟨some fetch5, ring5⟩ [Call.framerPoolPut] :=
  (C14_handleEvent_unhandled exampleString 5 ⟨some fetch5, ring5⟩).2.2.2.2.2.2.1
    "SIDEWAYS" [10, 0, 0, 5] 9042 (by decide) (by decide)

/-- C17: a removed host can be rediscovered.  After `handleRemovedNode(a, port)`,
with a fetcher configured whose fetch succeeds with a record for `a`, both
`handleNodeUp(a, port)` and `handleNewNode(a, port)` return having put the
fetched record into the ring under `a` and called `pool.addHost` with it; the
host is not treated as known: `pool.hostUp` is not called. -/
theorem C17_removed_host_rediscovered (ipString : IP → String) (fuel : Nat) (s : Session)
    (ip : IP) (port : Int) (c : controlConn) (hostInfo : HostInfo)
    (hc : s.control = some c) (hf : c.answer c.asked ip port = Except.ok hostInfo)
    (hkey : ipString hostInfo.peer = ipString ip) :
    ((handleRemovedNode ipString s ip port).1.ring.getHost (ipString ip) = none) ∧
      ((handleNodeUp ipString (fuel + 2) (handleRemovedNode ipString s ip port).1
            ip port).isReturned = true ∧
        (handleNodeUp ipString (fuel + 2) (handleRemovedNode ipString s ip port).1
            ip port).calls
          = [Call.ringGetHost (ipString ip), Call.fetchHostInfo ip port,
              Call.ringAddHostIfMissing hostInfo, Call.poolAddHost hostInfo] ∧
        (∀ h, Call.poolHostUp h ∉ (handleNodeUp ipString (fuel + 2)
            (handleRemovedNode ipString s ip port).1 ip port).calls) ∧
        (handleNodeUp ipString (fuel + 2) (handleRemovedNode ipString s ip port).1
            ip port).session.ring.getHost (ipString ip) = some hostInfo) ∧
      ((handleNewNode ipString (fuel + 1) (handleRemovedNode ipString s ip port).1
            ip port).isReturned = true ∧
        (handleNewNode ipString (fuel + 1) (handleRemovedNode ipString s ip port).1
            ip port).calls
          = [Call.fetchHostInfo ip port, Call.ringAddHostIfMissing hostInfo,
              Call.poolAddHost hostInfo] ∧
        (∀ h, Call.poolHostUp h ∉ (handleNewNode ipString (fuel + 1)
            (handleRemovedNode ipString s ip port).1 ip port).calls) ∧
        (handleNewNode ipString (fuel + 1) (handleRemovedNode ipString s ip port).1
            ip port).session.ring.getHost (ipString ip) = some hostInfo) := by
  have hgone : (handleRemovedNode ipString s ip port).1.ring.getHost (ipString ip) = none := by
    simp [handleRemovedNode, ring.removeHost, ring.getHost]
  have hgone1 : (handleRemovedNode ipString s ip port).1.ring.getHost
      (ipString hostInfo.peer) = none := by
    rw [hkey]; exact hgone
  have hgone2 : (handleRemovedNode ipString s ip port).1.ring.hosts
      (ipString hostInfo.peer) = none := hgone1
  have hc1 : (handleRemovedNode ipString s ip port).1.control = some c := hc
  have hnew := handleNewNode_added ipString fuel (handleRemovedNode ipString s ip port).1
    ip port c hostInfo hc1 hf hgone1
  have hring : (ring.addHostIfMissing ipString (handleRemovedNode ipString s ip port).1.ring
      hostInfo).2.getHost (ipString ip) = some hostInfo := by
    have hgone3 : (handleRemovedNode ipString s ip port).1.ring.hosts (ipString ip) = none :=
      hgone
    simp [ring.addHostIfMissing, hgone3, ring.getHost, hkey]
  refine ⟨hgone, ?_, ?_⟩
  · rw [handleNodeUp_absent ipString (fuel + 1) _ ip port hgone, hnew]
    refine ⟨rfl, rfl, ?_, hring⟩
    intro h hmem
    simp [Outcome.after, Outcome.calls] at hmem
  · rw [hnew]
    refine ⟨rfl, rfl, ?_, hring⟩
    intro h hmem
    simp [Outcome.calls] at hmem

/-- C17 at a concrete session: 10.0.0.5 is removed from a ring that held it as
down, then an UP for it arrives: it is fetched and added afresh. -/
theorem C17_removed_host_rediscovered_witness :
    (handleNodeUp exampleString 2
        (handleRemovedNode exampleString ⟨some fetch5, ring5⟩ [10, 0, 0, 5] 9042).1
        [10, 0, 0, 5] 9042).calls
      = [Call.ringGetHost "10.0.0.5", Call.fetchHostInfo [10, 0, 0, 5] 9042,
          Call.ringAddHostIfMissing host5, Call.poolAddHost host5] :=
  (C17_removed_host_rediscovered exampleString 0 ⟨some fetch5, ring5⟩ [10, 0, 0, 5] 9042
    fetch5 host5 rfl rfl rfl).2.1.2.1

theorem spinning_after_lookup (ipString : IP → String) (r : Gocql.ring) (ip : IP) (port : Int)
    (k : Nat) (o : Outcome) (h : o.spinning ipString r ip port k) :
    (o.after [Call.ringGetHost (ipString ip)]).spinning ipString r ip port k := by
  obtain ⟨h1, h2, h3, h4⟩ := h
  refine ⟨by rw [after_isReturned, h1], by rw [after_session, h2], ?_, ?_⟩
  · rw [after_calls, List.countP_append, h3]
    simp [Call.isFetch]
  · intro x hx
    rw [after_calls] at hx
    rcases List.mem_append.mp hx with hx | hx
    · exact Or.inl (by simpa using hx)
    · exact h4 x hx

theorem spinning_after_fetch (ipString : IP → String) (r : Gocql.ring) (ip : IP) (port : Int)
    (k : Nat) (hostInfo : HostInfo) (o : Outcome) (h : o.spinning ipString r ip port k) :
    (o.after [Call.fetchHostInfo ip port, Call.ringAddHostIfMissing hostInfo]).spinning
      ipString r ip port (k + 1) := by
  obtain ⟨h1, h2, h3, h4⟩ := h
  refine ⟨by rw [after_isReturned, h1], by rw [after_session, h2], ?_, ?_⟩
  · rw [after_calls, List.countP_append, h3]
    simp [Call.isFetch, List.countP_cons]
    omega
  · intro x hx
    rw [after_calls] at hx
    rcases List.mem_append.mp hx with hx | hx
    · simp only [List.mem_cons, List.mem_singleton, List.not_mem_nil, or_false] at hx
      rcases hx with hx | hx
      · exact Or.inr (Or.inl hx)
      · exact Or.inr (Or.inr ⟨hostInfo, hx⟩)
    · exact h4 x hx

/-- While every fetch for `(ip, port)` answers a record the ring already holds
and the ring has nothing under `ip.String()`, the two handlers keep calling each
other: with nesting bound `fuel` neither has returned, `handleNodeUp` has made
`fuel / 2` fetches and `handleNewNode` `(fuel + 1) / 2`. -/
theorem fallback_spins (ipString : IP → String) (answer : Nat → IP → Int → Except String HostInfo)
    (r : Gocql.ring) (ip : IP) (port : Int) (a0 : Nat)
    (habs : r.getHost (ipString ip) = none)
    (hloop : ∀ n, a0 ≤ n →
      ∃ h, answer n ip port = Except.ok h ∧ (r.addHostIfMissing ipString h).1 = false)
    (fuel a : Nat) (ha : a0 ≤ a) :
    (handleNodeUp ipString fuel ⟨some ⟨answer, a⟩, r⟩ ip port).spinning ipString r ip port
        (fuel / 2) ∧
      (handleNewNode ipString fuel ⟨some ⟨answer, a⟩, r⟩ ip port).spinning ipString r ip port
        ((fuel + 1) / 2) := by
  induction fuel generalizing a with
  | zero =>
    simp [handleNodeUp, handleNewNode, Outcome.spinning, Outcome.isReturned, Outcome.calls,
      Outcome.session]
  | succ fuel ih =>
    constructor
    · rw [handleNodeUp_absent ipString fuel ⟨some ⟨answer, a⟩, r⟩ ip port habs]
      exact spinning_after_lookup ipString r ip port _ _ (ih a ha).2
    · obtain ⟨h, hf, hp⟩ := hloop a ha
      rw [handleNewNode_present ipString fuel ⟨some ⟨answer, a⟩, r⟩ ip port ⟨answer, a⟩ h
        rfl hf hp]
      have hs := spinning_after_fetch ipString r ip port _ h _ (ih (a + 1) (by omega)).1
      have e : fuel / 2 + 1 = (fuel + 1 + 1) / 2 := by omega
      rw [← e]
      exact hs

/-- C18: the UP fallback can go on forever within one call.  Whenever the ring
has nothing under `ip.String()`, a fetcher is configured, and each fetch for
`(ip, port)` succeeds with a record that `addHostIfMissing` reports as already
present (a record keyed under another address than `ip.String()`), then
`handleNodeUp(ip, port)` has not returned within any bound on the nesting of
handler calls: the two handlers call each other, the ring stays as it is, no
call other than the lookup, the fetch and `addHostIfMissing` is made, and the
number of fetches grows without bound (`fuel / 2` fetches at nesting bound
`fuel`).  The witness below gives such a ring, fetcher and address. -/
theorem C18_up_fallback_never_returns (ipString : IP → String) (s : Session) (ip : IP)
    (port : Int) (c : controlConn) (hc : s.control = some c)
    (habs : s.ring.getHost (ipString ip) = none)
    (hloop : ∀ n, c.asked ≤ n →
      ∃ h, c.answer n ip port = Except.ok h ∧ (s.ring.addHostIfMissing ipString h).1 = false)
    (fuel : Nat) :
    (handleNodeUp ipString fuel s ip port).isReturned = false ∧
      (handleNodeUp ipString fuel s ip port).session.ring = s.ring ∧
      (handleNodeUp ipString fuel s ip port).calls.countP Call.isFetch = fuel / 2 ∧
      (∀ x ∈ (handleNodeUp ipString fuel s ip port).calls,
        x = Call.ringGetHost (ipString ip) ∨ x = Call.fetchHostInfo ip port ∨
          ∃ h, x = Call.ringAddHostIfMissing h) ∧
      (∀ n, ∃ bound,
        n ≤ (handleNodeUp ipString bound s ip port).calls.countP Call.isFetch ∧
          (handleNodeUp ipString bound s ip port).isReturned = false) := by
  have hs : s = ⟨some ⟨c.answer, c.asked⟩, s.ring⟩ := by
    cases s with
    | mk ctl rg =>
      simp only at hc
      subst hc
      rfl
  have key : ∀ k, (handleNodeUp ipString k s ip port).spinning ipString s.ring ip port
      (k / 2) := by
    intro k
    have h := (fallback_spins ipString c.answer s.ring ip port c.asked habs hloop k c.asked
      (le_refl _)).1
    rw [← hs] at h
    exact h
  obtain ⟨h1, h2, h3, h4⟩ := key fuel
  refine ⟨h1, h2, h3, h4, ?_⟩
  intro n
  obtain ⟨g1, -, g3, -⟩ := key (2 * n)
  exact ⟨2 * n, by rw [g3]; omega, g1⟩

/-- C18 at a concrete session: the ring holds 10.0.0.5 only and the fetcher answers
the record of 10.0.0.5 when asked about 10.0.0.6; an UP for 10.0.0.6 returns
within no bound on the nesting, and at bound 1000 it has made 500 fetches. -/
theorem C18_up_fallback_never_returns_witness :
    (¬ ∃ fuel,
        (handleNodeUp exampleString fuel ⟨some fetch5, ring5⟩ [10, 0, 0, 6] 9042).isReturned
          = true) ∧
      (handleNodeUp exampleString 1000 ⟨some fetch5, ring5⟩ [10, 0, 0, 6] 9042).calls.countP
        Call.isFetch = 1000 / 2 :=
  ⟨fun ⟨fuel, hret⟩ =>
      Bool.noConfusion
        (((C18_up_fallback_never_returns exampleString ⟨some fetch5, ring5⟩ [10, 0, 0, 6] 9042
          fetch5 rfl (by decide) (fun _ _ => ⟨host5, rfl, by decide⟩) fuel).1).symm.trans hret),
    (C18_up_fallback_never_returns exampleString ⟨some fetch5, ring5⟩ [10, 0, 0, 6] 9042
      fetch5 rfl (by decide) (fun _ _ => ⟨host5, rfl, by decide⟩) 1000).2.2.1⟩

theorem addHostIfMissing_false_iff (ipString : IP → String) (r : Gocql.ring) (h : HostInfo)
    (hp : (r.addHostIfMissing ipString h).1 = false) :
    ∃ x, r.getHost (ipString h.peer) = some x := by
  cases hh : r.hosts (ipString h.peer) with
  | none => simp [ring.addHostIfMissing, hh] at hp
  | some x => exact ⟨x, hh⟩

theorem addHostIfMissing_true_iff (ipString : IP → String) (r : Gocql.ring) (h : HostInfo)
    (hp : (r.addHostIfMissing ipString h).1 = true) :
    r.getHost (ipString h.peer) = none := by
  cases hh : r.hosts (ipString h.peer) with
  | none => exact hh
  | some x => simp [ring.addHostIfMissing, hh] at hp

/-- When the record a fetch for `(ip, port)` answers is keyed under `ip.String()`,
`handleNewNode` returns within two nested handler calls, after at most one
fetch, and with the same outcome at every larger bound. -/
theorem handleNewNode_settles (ipString : IP → String) (s : Session) (ip : IP) (port : Int)
    (hkey : ∀ c h, s.control = some c → c.answer c.asked ip port = Except.ok h →
      ipString h.peer = ipString ip) :
    (handleNewNode ipString 2 s ip port).isReturned = true ∧
      (handleNewNode ipString 2 s ip port).calls.countP Call.isFetch ≤ 1 ∧
      ∀ fuel, handleNewNode ipString (fuel + 2) s ip port = handleNewNode ipString 2 s ip port := by
  cases hc : s.control with
  | none =>
    have e := fun fuel => handleNewNode_nil ipString (fuel + 1) s ip port hc
    exact ⟨by rw [e 0]; rfl, by rw [e 0]; simp [Outcome.calls],
      fun fuel => by rw [e fuel, e 0]⟩
  | some c =>
    cases hf : c.answer c.asked ip port with
    | error err =>
      have e := fun fuel => handleNewNode_fetch_failed ipString (fuel + 1) s ip port c err hc hf
      exact ⟨by rw [e 0]; rfl,
        by rw [e 0]; simp [Outcome.calls, Call.isFetch, List.countP_cons],
        fun fuel => by rw [e fuel, e 0]⟩
    | ok h =>
      cases hp : (s.ring.addHostIfMissing ipString h).1 with
      | false =>
        obtain ⟨x, hx⟩ := addHostIfMissing_false_iff ipString s.ring h hp
        rw [hkey c h hc hf] at hx
        have e1 := fun fuel => handleNewNode_present ipString (fuel + 1) s ip port c h hc hf hp
        have e2 := fun fuel => handleNodeUp_found ipString fuel
          ⟨some { c with asked := c.asked + 1 }, s.ring⟩ ip port x hx
        exact ⟨by rw [e1 0, e2 0]; rfl,
          by rw [e1 0, e2 0]; simp [Outcome.after, Outcome.calls, Call.isFetch, List.countP_cons],
          fun fuel => by rw [e1 fuel, e2 fuel, e1 0, e2 0]⟩
      | true =>
        have hn := addHostIfMissing_true_iff ipString s.ring h hp
        have e := fun fuel => handleNewNode_added ipString (fuel + 1) s ip port c h hc hf hn
        exact ⟨by rw [e 0]; rfl,
          by rw [e 0]; simp [Outcome.calls, Call.isFetch, List.countP_cons],
          fun fuel => by rw [e fuel, e 0]⟩

/-- The same for `handleNodeUp`. -/
theorem handleNodeUp_settles (ipString : IP → String) (s : Session) (ip : IP) (port : Int)
    (hkey : ∀ c h, s.control = some c → c.answer c.asked ip port = Except.ok h →
      ipString h.peer = ipString ip) :
    (handleNodeUp ipString 2 s ip port).isReturned = true ∧
      (handleNodeUp ipString 2 s ip port).calls.countP Call.isFetch ≤ 1 ∧
      ∀ fuel, handleNodeUp ipString (fuel + 2) s ip port = handleNodeUp ipString 2 s ip port := by
  cases hg : s.ring.getHost (ipString ip) with
  | some host =>
    have e := fun fuel => handleNodeUp_found ipString (fuel + 1) s ip port host hg
    exact ⟨by rw [e 0]; rfl,
      by rw [e 0]; simp [Outcome.calls, Call.isFetch, List.countP_cons],
      fun fuel => by rw [e fuel, e 0]⟩
  | none =>
    have e1 := fun fuel => handleNodeUp_absent ipString (fuel + 1) s ip port hg
    cases hc : s.control with
    | none =>
      have e2 := fun fuel => handleNewNode_nil ipString fuel s ip port hc
      exact ⟨by rw [e1 0, e2 0]; rfl,
        by rw [e1 0, e2 0]; simp [Outcome.after, Outcome.calls, Call.isFetch, List.countP_cons],
        fun fuel => by rw [e1 fuel, e2 fuel, e1 0, e2 0]⟩
    | some c =>
      cases hf : c.answer c.asked ip port with
      | error err =>
        have e2 := fun fuel => handleNewNode_fetch_failed ipString fuel s ip port c err hc hf
        exact ⟨by rw [e1 0, e2 0]; rfl,
          by rw [e1 0, e2 0]; simp [Outcome.after, Outcome.calls, Call.isFetch, List.countP_cons],
          fun fuel => by rw [e1 fuel, e2 fuel, e1 0, e2 0]⟩
      | ok h =>
        have hn : s.ring.getHost (ipString h.peer) = none := by
          rw [hkey c h hc hf]; exact hg
        have e2 := fun fuel => handleNewNode_added ipString fuel s ip port c h hc hf hn
        exact ⟨by rw [e1 0, e2 0]; rfl,
          by rw [e1 0, e2 0]; simp [Outcome.after, Outcome.calls, Call.isFetch, List.countP_cons],
          fun fuel => by rw [e1 fuel, e2 fuel, e1 0, e2 0]⟩

/-- C19: when the record a successful `fetchHostInfo(ip, port)` answers has the
address string `ip.String()` (the ring being keyed by the record's address), the
mutual recursion of `handleNodeUp` and `handleNewNode` ends for every session,
address and port: either call has returned within two nested handler calls
(and its outcome is the same at every larger bound), it makes at most one
metadata fetch, and a failed fetch ends `handleNewNode` at once, after the fetch
and the log line. -/
theorem C19_fallback_terminates (ipString : IP → String) (fuel : Nat) (s : Session)
    (ip : IP) (port : Int)
    (hkey : ∀ c h, s.control = some c → c.answer c.asked ip port = Except.ok h →
      ipString h.peer = ipString ip) :
    (handleNodeUp ipString (fuel + 2) s ip port).isReturned = true ∧
      (handleNewNode ipString (fuel + 2) s ip port).isReturned = true ∧
      handleNodeUp ipString (fuel + 2) s ip port = handleNodeUp ipString 2 s ip port ∧
      handleNewNode ipString (fuel + 2) s ip port = handleNewNode ipString 2 s ip port ∧
      (handleNodeUp ipString (fuel + 2) s ip port).calls.countP Call.isFetch ≤ 1 ∧
      (handleNewNode ipString (fuel + 2) s ip port).calls.countP Call.isFetch ≤ 1 ∧
      (∀ c err, s.control = some c → c.answer c.asked ip port = Except.error err →
        handleNewNode ipString (fuel + 1) s ip port
            = Outcome.returned { s with control := some { c with asked := c.asked + 1 } }
                [Call.fetchHostInfo ip port, Call.logPrintf] ∧
          (s.ring.getHost (ipString ip) = none →
            handleNodeUp ipString (fuel + 2) s ip port
              = Outcome.returned { s with control := some { c with asked := c.asked + 1 } }
                  [Call.ringGetHost (ipString ip), Call.fetchHostInfo ip port,
                    Call.logPrintf])) := by
  obtain ⟨r1, f1, e1⟩ := handleNodeUp_settles ipString s ip port hkey
  obtain ⟨r2, f2, e2⟩ := handleNewNode_settles ipString s ip port hkey
  refine ⟨by rw [e1]; exact r1, by rw [e2]; exact r2, e1 fuel, e2 fuel,
    by rw [e1]; exact f1, by rw [e2]; exact f2, ?_⟩
  intro c err hc hf
  refine ⟨handleNewNode_fetch_failed ipString fuel s ip port c err hc hf, ?_⟩
  intro habs
  rw [handleNodeUp_absent ipString (fuel + 1) s ip port habs,
    handleNewNode_fetch_failed ipString fuel s ip port c err hc hf]
  rfl

/-- C19 at a concrete session: the fetcher answers the record of 10.0.0.5 when
asked about 10.0.0.5, which the ring holds; NEW_NODE for it returns after one
fetch. -/
theorem C19_fallback_terminates_witness :
    (handleNewNode exampleString 2 ⟨some fetch5, ring5⟩ [10, 0, 0, 5] 9042).isReturned = true ∧
      (handleNewNode exampleString 2 ⟨some fetch5, ring5⟩ [10, 0, 0, 5] 9042).calls.countP
        Call.isFetch ≤ 1 :=
  ⟨(C19_fallback_terminates exampleString 0 ⟨some fetch5, ring5⟩ [10, 0, 0, 5] 9042
      (fun c h hc hf => by
        have e : c = fetch5 := (Option.some.inj hc).symm
        subst e
        have e2 : h = host5 := (Except.ok.inj hf).symm
        subst e2
        rfl)).2.1,
    (C19_fallback_terminates exampleString 0 ⟨some fetch5, ring5⟩ [10, 0, 0, 5] 9042
      (fun c h hc hf => by
        have e : c = fetch5 := (Option.some.inj hc).symm
        subst e
        have e2 : h = host5 := (Except.ok.inj hf).symm
        subst e2
        rfl)).2.2.2.2.2.1⟩

end Session

end Gocql
